import Mathlib

/-!
Shallow embedding of the financeautomation frontend (React/TypeScript) and of
the spec-modelled backend job registry, for checking the natural-language
specification against the code.

Source files embedded:
- frontend/src/types.ts            (JobStatus, Job, UploadResponse, StatusResponse)
- frontend/src/services/api.ts     (uploadFile, downloadFile, cancelJob,
                                    getAllJobs, response interceptor)
- frontend/src/App.tsx             (addJob, updateJob, polling loop)
- frontend/src/components/UploadScreen.tsx  (onDrop job construction)
- frontend/src/components/Dashboard.tsx     (handleDownload, handleRefreshStatus,
                                             download-button enabling)
The backend job registry is not part of the sources; where a claim needs it,
it is modelled from the spec and marked as such.
-/

namespace FinanceAutomation

/-- types.ts line 1: JobStatus is the union of the four literal strings
processing, completed, failed, cancelled. -/
inductive JobStatus where
  | processing
  | completed
  | failed
  | cancelled
deriving DecidableEq, Repr

/-- The literal string carried by each JobStatus member in types.ts. -/
def JobStatus.toString : JobStatus → String
  | .processing => "processing"
  | .completed => "completed"
  | .failed => "failed"
  | .cancelled => "cancelled"

/-- The template union type of types.ts and api.ts: exactly two literal
strings are inhabitants. -/
inductive Template where
  | extractionTemplate1
  | extractionTemplate2
deriving DecidableEq, Repr

/-- The literal string carried by each Template member. -/
def Template.toString : Template → String
  | .extractionTemplate1 => "Extraction Template 1"
  | .extractionTemplate2 => "Extraction Template 2"

/-- types.ts Job interface. Date fields are modelled as Nat timestamps. -/
structure Job where
  taskId : String
  filename : String
  template : Template
  status : JobStatus
  uploadedAt : Nat
  completedAt : Option Nat := none
  downloadUrl : Option String := none
  error : Option String := none
  progress : Option Nat := none
deriving DecidableEq, Repr

/-- types.ts UploadResponse interface. -/
structure UploadResponse where
  task_id : String
  message : String
deriving DecidableEq, Repr

/-- types.ts StatusResponse interface. -/
structure StatusResponse where
  task_id : String
  status : JobStatus
  download_url : Option String := none
  error : Option String := none
  progress : Option Nat := none
deriving DecidableEq, Repr

/-- A browser File value as used by api.ts: name, MIME type, byte size. -/
structure JSFile where
  name : String
  type : String
  size : Nat
deriving DecidableEq, Repr

/-- The HTTP request that uploadFile issues when validation passes
(api.ts: api.post to /api/upload with the file and template form fields). -/
structure UploadRequest where
  method : String
  path : String
  fileName : String
  template : Template
deriving DecidableEq, Repr

/-- api.ts uploadFile: client-side validation, then the POST /api/upload
request. The file argument is an Option because the no-file guard in the
source checks for a missing file value. Each branch mirrors one source
guard in order: missing file, non-PDF MIME type, size above 50MB. -/
def uploadFile (file : Option JSFile) (template : Template) :
    Except String UploadRequest :=
  match file with
  | none => .error "No file provided"
  | some f =>
    if f.type ≠ "application/pdf" then
      .error "Only PDF files are supported"
    else if f.size > 50 * 1024 * 1024 then
      .error "File size too large. Maximum size is 50MB."
    else
      .ok { method := "POST", path := "/api/upload",
            fileName := f.name, template := template }

/-- The HTTP requests actually issued by a call to uploadFile: none on a
validation error (the source throws before api.post runs), exactly the one
POST otherwise. -/
def uploadRequests (res : Except String UploadRequest) : List UploadRequest :=
  match res with
  | .error _ => []
  | .ok q => [q]

/-- Modelled from the spec: the backend job registry (backend sources are
not in the repo snapshot). The spec describes a process-wide mapping from
task id to job snapshot; list_all returns all jobs, get_status fails with
NotFound on unknown ids, cancel removes the entry. -/
abbrev Registry := List StatusResponse

/-- Modelled from the spec: boundary failures of the backend API. -/
inductive ApiFailure where
  | notFound
deriving DecidableEq, Repr

/-- Modelled from the spec: list_all returns the registry snapshot. -/
def list_all (reg : Registry) : List StatusResponse := reg

/-- Modelled from the spec: get_status returns the job snapshot and fails
with NotFound when the task id is unknown. -/
def get_status (reg : Registry) (tid : String) : Except ApiFailure StatusResponse :=
  match reg.find? (fun r => r.task_id = tid) with
  | some r => .ok r
  | none => .error .notFound

/-- Modelled from the spec: cancel removes the job with the given task id
from the registry (best-effort administrative removal). -/
def cancel (reg : Registry) (tid : String) : Registry :=
  reg.filter (fun r => r.task_id ≠ tid)

/-- api.ts cancelJob issues DELETE /api/jobs/{taskId}; the pair is the
method and the path of that request. -/
def cancelJobRequest (taskId : String) : String × String :=
  ("DELETE", "/api/jobs/" ++ taskId)

/-- Modelled from the spec: the registry after the backend processes the
result of a client-side uploadFile call. A thrown validation error issues
no request, so the registry is untouched; an accepted upload inserts a
fresh job with status processing. -/
def registryAfterUpload (reg : Registry) (res : Except String UploadRequest)
    (freshId : String) : Registry :=
  match res with
  | .error _ => reg
  | .ok _ => reg ++ [{ task_id := freshId, status := .processing }]

/-- A Blob response body as used by downloadFile: only its size matters for
the emptiness check in the source. -/
structure Blob where
  size : Nat
deriving DecidableEq, Repr

/-- The JavaScript String startsWith check, on the character data of the
strings (kernel-evaluable form of the same prefix test). -/
def strStartsWith (s p : String) : Bool :=
  s.data.take p.data.length = p.data

/-- api.ts downloadFile URL resolution: the URL itself when it starts with
http, otherwise the API base URL prepended. -/
def fullUrl (baseUrl url : String) : String :=
  if strStartsWith url "http" then url else baseUrl ++ url

/-- api.ts downloadFile. The fetch argument stands for the axios GET on the
resolved URL, returning the response data if any (a missing body and a
failed request both surface as a thrown error in the source; a failed
request rethrows the axios error, modelled here by the same none case as a
missing body only through the caller-visible fact that no Blob is
returned). The guards mirror the source in order: falsy (empty) URL, then
missing-or-empty body. -/
def downloadFile (baseUrl : String) (downloadUrl : String)
    (fetch : String → Option Blob) : Except String Blob :=
  if downloadUrl = "" then
    .error "Download URL is required"
  else
    match fetch (fullUrl baseUrl downloadUrl) with
    | none => .error "Downloaded file is empty"
    | some b =>
      if b.size = 0 then .error "Downloaded file is empty"
      else .ok b

/-- The data object of a failed axios response as read by the interceptor:
an optional detail string (ApiError in types.ts). -/
structure ErrResponseData where
  detail : Option String := none
deriving DecidableEq, Repr

/-- The response part of an axios error: HTTP status and data. -/
structure ErrResponse where
  status : Nat
  data : ErrResponseData := {}
deriving DecidableEq, Repr

/-- An axios error as read by the response interceptor: optional response,
optional error code, message string. -/
structure AxiosError where
  response : Option ErrResponse := none
  code : Option String := none
  message : String := ""
deriving DecidableEq, Repr

/-- error.response?.data?.detail in the source. -/
def detailOf (e : AxiosError) : Option String :=
  e.response.bind (fun r => r.data.detail)

/-- JavaScript truthiness of an optional string: present and non-empty. -/
def optTruthy : Option String → Bool
  | some s => s ≠ ""
  | none => false

/-- error.response?.status in the source. -/
def respStatus (e : AxiosError) : Option Nat :=
  e.response.map (fun r => r.status)

/-- error.response?.status greater or equal 500 in the source (false when
there is no response, as the optional chain then yields undefined). -/
def respStatusIs5xx (e : AxiosError) : Bool :=
  match respStatus e with
  | some s => 500 ≤ s
  | none => false

/-- api.ts response interceptor, error branch: the message of the Error the
source throws. The if-chain mirrors the source guards in order; the detail
guard is a JavaScript truthiness test, so an empty detail string falls
through to the later guards, and the final branch applies the
message-or-default fallback. -/
def interceptErrorMessage (e : AxiosError) : String :=
  if optTruthy (detailOf e) then
    (detailOf e).getD ""
  else if respStatus e = some 413 then
    "File size too large. Please upload a smaller file."
  else if respStatus e = some 429 then
    "Too many requests. Please wait a moment and try again."
  else if respStatusIs5xx e then
    "Server error. Please try again later."
  else if e.code = some "ECONNABORTED" then
    "Request timeout. Please try again."
  else if e.code = some "ERR_NETWORK" then
    "Network error. Please check your connection."
  else if e.message ≠ "" then
    e.message
  else
    "An unexpected error occurred"

/-- api.ts response interceptor, error branch, as a computation: every
branch of the source throws, so for any would-be response type the result
is an error carrying the thrown message. -/
def respInterceptorOnError (α : Type) (e : AxiosError) : Except String α :=
  .error (interceptErrorMessage e)

/-- Partial Job as used by updateJob in App.tsx: each field may be absent
from the updates object; a present field overwrites, including a present
field holding an explicitly undefined value for the optional Job fields
(hence the nested Option on those). -/
structure JobUpdates where
  taskId : Option String := none
  filename : Option String := none
  template : Option Template := none
  status : Option JobStatus := none
  uploadedAt : Option Nat := none
  completedAt : Option (Option Nat) := none
  downloadUrl : Option (Option String) := none
  error : Option (Option String) := none
  progress : Option (Option Nat) := none
deriving DecidableEq, Repr

/-- The object spread of App.tsx updateJob: fields present in the updates
object replace those of the job, the rest are kept. -/
def mergeJob (j : Job) (u : JobUpdates) : Job where
  taskId := u.taskId.getD j.taskId
  filename := u.filename.getD j.filename
  template := u.template.getD j.template
  status := u.status.getD j.status
  uploadedAt := u.uploadedAt.getD j.uploadedAt
  completedAt := u.completedAt.getD j.completedAt
  downloadUrl := u.downloadUrl.getD j.downloadUrl
  error := u.error.getD j.error
  progress := u.progress.getD j.progress

/-- App.tsx updateJob: map over the job list, merging the updates into every
job whose taskId matches and leaving the others as they are. -/
def updateJob (jobs : List Job) (taskId : String) (u : JobUpdates) : List Job :=
  jobs.map fun j => if j.taskId = taskId then mergeJob j u else j

/-- App.tsx addJob: append the new job to the list. -/
def addJob (jobs : List Job) (j : Job) : List Job := jobs ++ [j]

/-- The updates object built at both status-consuming call sites (the App
polling loop and Dashboard handleRefreshStatus): the literal lists the
status, downloadUrl, error and progress keys, so all four are present and
overwrite, even when the response carries no value for them. -/
def statusUpdates (r : StatusResponse) : JobUpdates :=
  { status := some r.status, downloadUrl := some r.download_url,
    error := some r.error, progress := some r.progress }

/-- Net effect of updateJob with statusUpdates on one matching job. -/
def applyStatus (j : Job) (r : StatusResponse) : Job :=
  mergeJob j (statusUpdates r)

/-- UploadScreen.tsx onDrop: the Job built from a successful upload
response and handed to onJobCreated. -/
def onDropJob (resp : UploadResponse) (f : JSFile) (t : Template)
    (now : Nat) : Job :=
  { taskId := resp.task_id, filename := f.name, template := t,
    status := .processing, uploadedAt := now, progress := some 0 }

/-- Dashboard.tsx download button: enabled exactly when the disabled
condition (status not completed, or falsy downloadUrl) is false. -/
def downloadEnabled (j : Job) : Bool :=
  j.status == .completed && optTruthy j.downloadUrl

/-- Dashboard.tsx handleDownload: proceeds past its guard exactly when the
downloadUrl is truthy (otherwise it reports an error and returns). -/
def handleDownloadProceeds (j : Job) : Bool :=
  optTruthy j.downloadUrl

/-- Dashboard.tsx refresh button: disabled exactly on completed jobs. -/
def refreshEnabled (j : Job) : Bool :=
  !(j.status == .completed)

/-- The processing branch of the job-state invariant: no terminal fields. -/
def processingCase (j : Job) : Prop :=
  j.status = .processing ∧ j.downloadUrl = none ∧ j.error = none

/-- The completed branch of the job-state invariant: downloadUrl set,
error unset. -/
def completedCase (j : Job) : Prop :=
  j.status = .completed ∧ j.downloadUrl ≠ none ∧ j.error = none

/-- The failed branch of the job-state invariant: error set, downloadUrl
unset. -/
def failedCase (j : Job) : Prop :=
  j.status = .failed ∧ j.error ≠ none ∧ j.downloadUrl = none

/-- The job-state invariant: one of the three branches holds. -/
def jobConsistent (j : Job) : Prop :=
  processingCase j ∨ completedCase j ∨ failedCase j

/-- Modelled from the spec: a backend status response satisfies the same
exactly-one-of discipline the spec states for jobs (processing with no
terminal fields, completed with download_url, failed with error); the
backend sources are not in the repo snapshot. -/
def respConsistent (r : StatusResponse) : Prop :=
  (r.status = .processing ∧ r.download_url = none ∧ r.error = none) ∨
  (r.status = .completed ∧ r.download_url ≠ none ∧ r.error = none) ∨
  (r.status = .failed ∧ r.error ≠ none ∧ r.download_url = none)

/-- One frontend operation on the job list as it affects field consistency:
a fresh job from UploadScreen onDrop is added, or a status response
satisfying the spec-modelled backend consistency is merged in (the App
polling loop and Dashboard handleRefreshStatus both call updateJob with
the statusUpdates object), or a failed request leaves the list alone. -/
inductive ConsStep : List Job → List Job → Prop where
  | add (s : List Job) (resp : UploadResponse) (f : JSFile) (t : Template)
      (now : Nat) : ConsStep s (addJob s (onDropJob resp f t now))
  | update (s : List Job) (tid : String) (r : StatusResponse)
      (hr : respConsistent r) : ConsStep s (updateJob s tid (statusUpdates r))
  | noop (s : List Job) : ConsStep s s

/-- The task ids of a frontend job list. -/
def ids (jobs : List Job) : List String := jobs.map (fun j => j.taskId)

/-- The status the frontend currently holds for a task id, if any. -/
def statusOf (jobs : List Job) (tid : String) : Option JobStatus :=
  (jobs.find? (fun j => j.taskId = tid)).map (fun j => j.status)

/-- One observable operation of the frontend on its job list.

- add: UploadScreen hands a freshly built job (status processing, with a
  task id the backend freshly issued, hence not already present) to addJob.
- poll: one iteration of the App polling loop for one job; the loop filters
  on status processing, so only such jobs are updated.
- refresh: Dashboard handleRefreshStatus for one job; the button is
  disabled on completed jobs. The response hypothesis is modelled from the
  spec (backend sources are not in the repo snapshot): a job the backend
  has reported failed stays failed (no transition out of a terminal state),
  and a cancelled job is removed from the registry, so get_status for it
  fails with NotFound and the handler takes its catch branch (the noop
  case) instead.
- noop: a failed getJobStatus call in either loop; the catch branches only
  log, so the list is unchanged. -/
inductive FrontStep : List Job → List Job → Prop where
  | add (s : List Job) (j : Job)
      (hfresh : j.taskId ∉ ids s) (hstat : j.status = .processing) :
      FrontStep s (addJob s j)
  | poll (s : List Job) (j : Job) (r : StatusResponse)
      (hmem : j ∈ s) (hproc : j.status = .processing) :
      FrontStep s (updateJob s j.taskId (statusUpdates r))
  | refresh (s : List Job) (j : Job) (r : StatusResponse)
      (hmem : j ∈ s)
      (hok : j.status = .processing ∨ (j.status = .failed ∧ r.status = .failed)) :
      FrontStep s (updateJob s j.taskId (statusUpdates r))
  | noop (s : List Job) : FrontStep s s

/-- Finitely many frontend operations in sequence. -/
abbrev FrontSteps : List Job → List Job → Prop :=
  Relation.ReflTransGen FrontStep

/-- A validation error from uploadFile issues no HTTP request and (spec-
modelled backend) leaves the registry unchanged. -/
theorem upload_error_effects {file : Option JSFile} {t : Template} {e : String}
    (h : uploadFile file t = .error e) :
    uploadRequests (uploadFile file t) = [] ∧
    ∀ (reg : Registry) (fid : String),
      registryAfterUpload reg (uploadFile file t) fid = reg := by
  rw [h]
  exact ⟨rfl, fun _ _ => rfl⟩

/-- C1: uploadFile throws (issuing no HTTP request, leaving the registry
unchanged) when no file is given, the MIME type is not application/pdf, or
the size exceeds 50*1024*1024 bytes; a PDF of size at most 50MB is
submitted to POST /api/upload with the chosen template. -/
theorem c1_uploadFile_validation : ∀ (file : Option JSFile) (t : Template),
    ((file = none ∨ ∃ f, file = some f ∧
        (f.type ≠ "application/pdf" ∨ 50 * 1024 * 1024 < f.size)) →
      ∃ e, uploadFile file t = .error e ∧
        uploadRequests (uploadFile file t) = [] ∧
        ∀ (reg : Registry) (fid : String),
          registryAfterUpload reg (uploadFile file t) fid = reg) ∧
    (∀ f, file = some f → f.type = "application/pdf" →
      f.size ≤ 50 * 1024 * 1024 →
      uploadFile file t = .ok { method := "POST", path := "/api/upload",
                                fileName := f.name, template := t }) := by
  intro file t
  constructor
  · rintro (rfl | ⟨f, rfl, hbad⟩)
    · have h : uploadFile none t = .error "No file provided" := rfl
      exact ⟨_, h, (upload_error_effects h).1, (upload_error_effects h).2⟩
    · by_cases hty : f.type = "application/pdf"
      · rcases hbad with hbad | hbad
        · exact absurd hty hbad
        · have h : uploadFile (some f) t = .error
              "File size too large. Maximum size is 50MB." := by
            simp [uploadFile, hty, hbad]
          exact ⟨_, h, (upload_error_effects h).1, (upload_error_effects h).2⟩
      · have h : uploadFile (some f) t = .error "Only PDF files are supported" := by
          simp [uploadFile, hty]
        exact ⟨_, h, (upload_error_effects h).1, (upload_error_effects h).2⟩
  · rintro f rfl hty hsz
    simp [uploadFile, hty, Nat.not_lt.mpr hsz]

/-- C1 witness: a concrete oversize non-PDF is rejected with no request
issued, and a concrete small PDF is accepted as a POST /api/upload. -/
theorem c1_uploadFile_validation_witness :
    (∃ e, uploadFile (some { name := "a.txt", type := "text/plain", size := 10 })
        .extractionTemplate1 = .error e ∧
      uploadRequests (uploadFile
        (some { name := "a.txt", type := "text/plain", size := 10 })
        .extractionTemplate1) = [] ∧
      ∀ (reg : Registry) (fid : String),
        registryAfterUpload reg (uploadFile
          (some { name := "a.txt", type := "text/plain", size := 10 })
          .extractionTemplate1) fid = reg) ∧
    uploadFile (some { name := "b.pdf", type := "application/pdf", size := 900 })
        .extractionTemplate2 =
      .ok { method := "POST", path := "/api/upload", fileName := "b.pdf",
            template := .extractionTemplate2 } := by
  constructor
  · exact (c1_uploadFile_validation
      (some { name := "a.txt", type := "text/plain", size := 10 })
      .extractionTemplate1).1 (Or.inr ⟨_, rfl, Or.inl (by decide)⟩)
  · exact (c1_uploadFile_validation
      (some { name := "b.pdf", type := "application/pdf", size := 900 })
      .extractionTemplate2).2 _ rfl (by decide) (by decide)

/-- C4: for every successful uploadFile call, the Job handed to
onJobCreated has taskId equal to the response task_id, filename equal to
the uploaded file name, the selected template, status processing and
progress 0. -/
theorem c4_onDropJob_fields :
    ∀ (f : JSFile) (t : Template) (resp : UploadResponse) (now : Nat),
    (∃ req, uploadFile (some f) t = .ok req) →
    (onDropJob resp f t now).taskId = resp.task_id ∧
    (onDropJob resp f t now).filename = f.name ∧
    (onDropJob resp f t now).template = t ∧
    (onDropJob resp f t now).status = .processing ∧
    (onDropJob resp f t now).progress = some 0 := by
  intro f t resp now _
  exact ⟨rfl, rfl, rfl, rfl, rfl⟩

/-- C4 witness: a concrete accepted PDF upload yields a job with the
expected fields. -/
theorem c4_onDropJob_fields_witness :
    (onDropJob { task_id := "t1", message := "ok" }
      { name := "b.pdf", type := "application/pdf", size := 900 }
      .extractionTemplate1 5).status = .processing ∧
    (onDropJob { task_id := "t1", message := "ok" }
      { name := "b.pdf", type := "application/pdf", size := 900 }
      .extractionTemplate1 5).taskId = "t1" := by
  have h := c4_onDropJob_fields
    { name := "b.pdf", type := "application/pdf", size := 900 }
    .extractionTemplate1 { task_id := "t1", message := "ok" } 5 ⟨_, rfl⟩
  exact ⟨h.2.2.2.1, h.1⟩

/-- C5: every Template value renders to one of the two literal template
strings, every Job template does so, and every request uploadFile submits
carries the template it was called with (hence one of the two strings). -/
theorem c5_template_enum :
    (∀ t : Template, t.toString = "Extraction Template 1" ∨
      t.toString = "Extraction Template 2") ∧
    (∀ j : Job, j.template.toString = "Extraction Template 1" ∨
      j.template.toString = "Extraction Template 2") ∧
    (∀ (file : Option JSFile) (t : Template) (req : UploadRequest),
      uploadFile file t = .ok req → req.template = t ∧
        (req.template.toString = "Extraction Template 1" ∨
         req.template.toString = "Extraction Template 2")) := by
  refine ⟨fun t => ?_, fun j => ?_, fun file t req h => ?_⟩
  · cases t
    · exact Or.inl rfl
    · exact Or.inr rfl
  · cases j.template
    · exact Or.inl rfl
    · exact Or.inr rfl
  · have hreq : req.template = t := by
      cases file with
      | none => simp [uploadFile] at h
      | some f =>
        simp only [uploadFile] at h
        split at h
        · simp at h
        · split at h
          · simp at h
          · injection h with h2
            rw [← h2]
    refine ⟨hreq, ?_⟩
    rw [hreq]
    cases t
    · exact Or.inl rfl
    · exact Or.inr rfl

/-- C5 witness: a concrete accepted upload carries the chosen template. -/
theorem c5_template_enum_witness :
    ({ method := "POST", path := "/api/upload", fileName := "b.pdf",
       template := .extractionTemplate2 } : UploadRequest).template =
      Template.extractionTemplate2 := by
  exact (c5_template_enum.2.2
    (some { name := "b.pdf", type := "application/pdf", size := 900 })
    .extractionTemplate2 _ rfl).1

/-- C6: frontend cancelJob issues DELETE /api/jobs/{taskId}; the (spec-
modelled) registry removal leaves no job with that task id in list_all,
a subsequent get_status fails with NotFound, and other jobs remain. -/
theorem c6_cancel_removes : ∀ (reg : Registry) (tid : String),
    cancelJobRequest tid = ("DELETE", "/api/jobs/" ++ tid) ∧
    (∀ r ∈ list_all (cancel reg tid), r.task_id ≠ tid) ∧
    get_status (cancel reg tid) tid = .error .notFound ∧
    (∀ r ∈ list_all reg, r.task_id ≠ tid → r ∈ list_all (cancel reg tid)) := by
  intro reg tid
  refine ⟨rfl, fun r hr => ?_, ?_, fun r hr hne => ?_⟩
  · have := (List.mem_filter.mp hr).2
    simpa using this
  · unfold get_status
    have hnone : (cancel reg tid).find? (fun r => r.task_id = tid) = none := by
      rw [List.find?_eq_none]
      intro x hx
      have := (List.mem_filter.mp hx).2
      simpa using this
    rw [hnone]
  · exact List.mem_filter.mpr ⟨hr, by simpa using hne⟩

/-- C6 witness: cancelling task a in a concrete two-job registry makes its
lookup NotFound while task b survives. -/
theorem c6_cancel_removes_witness :
    get_status (cancel [{ task_id := "a", status := .processing },
      { task_id := "b", status := .completed,
        download_url := some "/downloads/x.xlsx" }] "a") "a" =
      .error .notFound ∧
    ({ task_id := "b", status := .completed,
       download_url := some "/downloads/x.xlsx" } : StatusResponse) ∈
      list_all (cancel [{ task_id := "a", status := .processing },
        { task_id := "b", status := .completed,
          download_url := some "/downloads/x.xlsx" }] "a") := by
  refine ⟨(c6_cancel_removes _ "a").2.2.1, ?_⟩
  exact (c6_cancel_removes _ "a").2.2.2 _ (by decide) (by decide)

/-- C7: the frontend status type additionally admits cancelled: it is one
of the four members of JobStatus, which is the status type of both Job and
StatusResponse. -/
theorem c7_cancelled_status :
    JobStatus.cancelled ∈
      [JobStatus.processing, .completed, .failed, .cancelled] ∧
    (∀ s : JobStatus, s ∈
      [JobStatus.processing, .completed, .failed, .cancelled]) ∧
    JobStatus.toString .cancelled = "cancelled" ∧
    (∃ j : Job, j.status = .cancelled) ∧
    (∃ r : StatusResponse, r.status = .cancelled) := by
  refine ⟨by decide, fun s => by cases s <;> decide, rfl, ?_, ?_⟩
  · exact ⟨{ taskId := "t", filename := "f", template := .extractionTemplate1,
             status := .cancelled, uploadedAt := 0 }, rfl⟩
  · exact ⟨{ task_id := "t", status := .cancelled }, rfl⟩

/-- C8: updateJob preserves list length and order and leaves every job with
a different taskId unchanged; addJob appends at the end and leaves every
existing job unchanged. -/
theorem c8_updateJob_addJob_frame :
    ∀ (jobs : List Job) (tid : String) (u : JobUpdates) (j0 : Job),
    (updateJob jobs tid u).length = jobs.length ∧
    (∀ (i : Nat) (j : Job), jobs[i]? = some j → j.taskId ≠ tid →
      (updateJob jobs tid u)[i]? = some j) ∧
    (addJob jobs j0).length = jobs.length + 1 ∧
    (∀ i : Nat, i < jobs.length → (addJob jobs j0)[i]? = jobs[i]?) ∧
    (addJob jobs j0)[jobs.length]? = some j0 := by
  intro jobs tid u j0
  refine ⟨List.length_map jobs _, fun i j hij hne => ?_, by
    simp [addJob], fun i hi => ?_, ?_⟩
  · unfold updateJob
    rw [List.getElem?_map, hij]
    simp [hne]
  · unfold addJob
    rw [List.getElem?_append]
    simp [hi]
  · exact List.getElem?_concat_length jobs j0

/-- C8 witness: in a concrete two-job list, updating task a leaves the job
of task b in place and unchanged, and addJob appends at the end. -/
theorem c8_updateJob_addJob_frame_witness :
    (updateJob [{ taskId := "a", filename := "a.pdf",
                  template := .extractionTemplate1, status := .processing,
                  uploadedAt := 0 },
                { taskId := "b", filename := "b.pdf",
                  template := .extractionTemplate2, status := .completed,
                  uploadedAt := 1,
                  downloadUrl := some "/downloads/b.xlsx" }] "a"
      { status := some .failed })[1]? =
      some { taskId := "b", filename := "b.pdf",
             template := .extractionTemplate2, status := .completed,
             uploadedAt := 1, downloadUrl := some "/downloads/b.xlsx" } ∧
    (addJob ([] : List Job)
      { taskId := "c", filename := "c.pdf",
        template := .extractionTemplate1, status := .processing,
        uploadedAt := 2 })[0]? =
      some { taskId := "c", filename := "c.pdf",
             template := .extractionTemplate1, status := .processing,
             uploadedAt := 2 } := by
  constructor
  · exact (c8_updateJob_addJob_frame _ "a" { status := some .failed }
      { taskId := "c", filename := "c.pdf",
        template := .extractionTemplate1, status := .processing,
        uploadedAt := 2 }).2.1 1 _ (by decide) (by decide)
  · exact (c8_updateJob_addJob_frame [] "a" { status := some .failed }
      { taskId := "c", filename := "c.pdf",
        template := .extractionTemplate1, status := .processing,
        uploadedAt := 2 }).2.2.2.2

/-- C9: downloadFile throws on an empty URL; otherwise it requests the URL
itself when it starts with http and the base URL prepended otherwise, it
throws the empty-file message when the body is missing or of size 0, and
returns the non-empty Blob in exactly the remaining cases. -/
theorem c9_downloadFile_cases :
    ∀ (base url : String) (fetch : String → Option Blob),
    (url = "" → downloadFile base url fetch = .error "Download URL is required") ∧
    (strStartsWith url "http" = true → fullUrl base url = url) ∧
    (strStartsWith url "http" = false → fullUrl base url = base ++ url) ∧
    (url ≠ "" → fetch (fullUrl base url) = none →
      downloadFile base url fetch = .error "Downloaded file is empty") ∧
    (url ≠ "" → ∀ b, fetch (fullUrl base url) = some b → b.size = 0 →
      downloadFile base url fetch = .error "Downloaded file is empty") ∧
    (url ≠ "" → ∀ b, fetch (fullUrl base url) = some b → b.size ≠ 0 →
      downloadFile base url fetch = .ok b) := by
  intro base url fetch
  refine ⟨fun h => ?_, fun h => ?_, fun h => ?_, fun hne hnone => ?_,
    fun hne b hb hz => ?_, fun hne b hb hz => ?_⟩
  · simp [downloadFile, h]
  · simp [fullUrl, h]
  · simp [fullUrl, h]
  · simp [downloadFile, hne, hnone]
  · simp [downloadFile, hne, hb, hz]
  · simp [downloadFile, hne, hb, hz]

/-- C9 witness: on a concrete relative URL with a concrete fetch table, the
URL is resolved against the base and a non-empty body is returned, while a
size-0 body yields the empty-file error. -/
theorem c9_downloadFile_cases_witness :
    downloadFile "http://localhost:8000" "/downloads/x.xlsx"
      (fun u => if u = "http://localhost:8000/downloads/x.xlsx" then
        some { size := 7 } else none) = .ok { size := 7 } ∧
    downloadFile "http://localhost:8000" "/downloads/x.xlsx"
      (fun _ => some { size := 0 }) = .error "Downloaded file is empty" ∧
    downloadFile "http://localhost:8000" ""
      (fun _ => some { size := 7 }) = .error "Download URL is required" := by
  refine ⟨?_, ?_, ?_⟩
  · exact (c9_downloadFile_cases "http://localhost:8000" "/downloads/x.xlsx"
      _).2.2.2.2.2 (by decide) { size := 7 } (by decide) (by decide)
  · exact (c9_downloadFile_cases "http://localhost:8000" "/downloads/x.xlsx"
      _).2.2.2.2.1 (by decide) { size := 0 } rfl rfl
  · exact (c9_downloadFile_cases "http://localhost:8000" "" _).1 rfl

/-- C10 counterexample: an axios error whose response carries a present but
empty detail string together with HTTP status 413. The interceptor thrown
message is the 413 fallback, not the present detail value, refuting the
claim that a present detail always takes precedence. -/
theorem c10_empty_detail_counterexample :
    detailOf { response := some { status := 413,
                                  data := { detail := some "" } } } =
      some "" ∧
    interceptErrorMessage { response := some { status := 413,
                                               data := { detail := some "" } } } =
      "File size too large. Please upload a smaller file." ∧
    interceptErrorMessage { response := some { status := 413,
                                               data := { detail := some "" } } } ≠
      "" := by
  exact ⟨rfl, rfl, by decide⟩

/-- C10 (amended): the response interceptor error branch always throws and
never resolves, and the thrown message is the detail field whenever a
non-empty detail is present, taking precedence over all fallbacks. -/
theorem c10_interceptor_detail_precedence :
    ∀ (α : Type) (e : AxiosError),
    (∃ m, respInterceptorOnError α e = .error m) ∧
    (∀ d, detailOf e = some d → d ≠ "" →
      respInterceptorOnError α e = .error d) := by
  intro α e
  refine ⟨⟨_, rfl⟩, fun d hd hne => ?_⟩
  unfold respInterceptorOnError interceptErrorMessage
  rw [hd]
  simp [optTruthy, hne]

/-- C10 witness: a concrete error with a non-empty detail and status 413 is
thrown with the detail message. -/
theorem c10_interceptor_detail_precedence_witness :
    respInterceptorOnError Unit
      { response := some { status := 413,
                           data := { detail := some "quota reached" } } } =
      .error "quota reached" := by
  exact (c10_interceptor_detail_precedence Unit
    { response := some { status := 413,
                         data := { detail := some "quota reached" } } }).2
    "quota reached" rfl (by decide)

/-- A job freshly built by onDrop satisfies the job-state invariant. -/
theorem onDropJob_consistent (resp : UploadResponse) (f : JSFile)
    (t : Template) (now : Nat) : jobConsistent (onDropJob resp f t now) :=
  Or.inl ⟨rfl, rfl, rfl⟩

/-- Merging a consistent backend status response into a job yields a
consistent job: the updates object overwrites status, downloadUrl and
error wholesale. -/
theorem applyStatus_consistent (j : Job) (r : StatusResponse)
    (hr : respConsistent r) : jobConsistent (applyStatus j r) := by
  have hs : (applyStatus j r).status = r.status := rfl
  have hd : (applyStatus j r).downloadUrl = r.download_url := rfl
  have he : (applyStatus j r).error = r.error := rfl
  unfold jobConsistent processingCase completedCase failedCase
  rw [hs, hd, he]
  exact hr

/-- One consistency-relevant frontend operation preserves the job-state
invariant across the whole list. -/
theorem consStep_preserve {s s2 : List Job} (h : ConsStep s s2)
    (hc : ∀ x ∈ s, jobConsistent x) : ∀ x ∈ s2, jobConsistent x := by
  cases h with
  | add resp f t now =>
    intro x hx
    unfold addJob at hx
    rcases List.mem_append.mp hx with hx | hx
    · exact hc x hx
    · rw [List.mem_singleton] at hx
      rw [hx]
      exact onDropJob_consistent resp f t now
  | update tid r hr =>
    intro x hx
    unfold updateJob at hx
    rcases List.mem_map.mp hx with ⟨j, hjm, hje⟩
    rw [← hje]
    by_cases hcnd : j.taskId = tid
    · rw [if_pos hcnd]
      exact applyStatus_consistent j r hr
    · rw [if_neg hcnd]
      exact hc j hjm
  | noop => exact hc

/-- C2: the three branches of the job-state invariant are pairwise
exclusive; a freshly created job and any job updated from a consistent
backend status response satisfy the invariant; the download button is
enabled only when the status is completed and a downloadUrl is present,
handleDownload then proceeds, and under the invariant handleDownload
proceeds only on completed jobs; over any trace of frontend operations
with spec-consistent backend responses, every job held at every point
satisfies the invariant. -/
theorem c2_job_state_invariant :
    (∀ j : Job, ¬ (processingCase j ∧ completedCase j) ∧
      ¬ (processingCase j ∧ failedCase j) ∧
      ¬ (completedCase j ∧ failedCase j)) ∧
    (∀ (resp : UploadResponse) (f : JSFile) (t : Template) (now : Nat),
      jobConsistent (onDropJob resp f t now)) ∧
    (∀ (j : Job) (r : StatusResponse), respConsistent r →
      jobConsistent (applyStatus j r)) ∧
    (∀ (s s2 : List Job), Relation.ReflTransGen ConsStep s s2 →
      (∀ x ∈ s, jobConsistent x) → ∀ x ∈ s2, jobConsistent x) ∧
    (∀ j : Job, downloadEnabled j = true →
      j.status = .completed ∧ j.downloadUrl ≠ none) ∧
    (∀ j : Job, downloadEnabled j = true → handleDownloadProceeds j = true) ∧
    (∀ j : Job, jobConsistent j → handleDownloadProceeds j = true →
      j.status = .completed) := by
  refine ⟨fun j => ?_, fun resp f t now => onDropJob_consistent resp f t now,
    fun j r hr => applyStatus_consistent j r hr, fun s s2 h hc => ?_,
    fun j hj => ?_, fun j hj => ?_, fun j hc hp => ?_⟩
  · unfold processingCase completedCase failedCase
    refine ⟨fun ⟨h1, h2⟩ => ?_, fun ⟨h1, h2⟩ => ?_, fun ⟨h1, h2⟩ => ?_⟩
    · rw [h1.1] at h2; exact absurd h2.1 (by decide)
    · rw [h1.1] at h2; exact absurd h2.1 (by decide)
    · rw [h1.1] at h2; exact absurd h2.1 (by decide)
  · induction h with
    | refl => exact hc
    | tail hab hbc ih => exact consStep_preserve hbc ih
  · unfold downloadEnabled at hj
    rcases Bool.and_eq_true_iff.mp hj with ⟨h1, h2⟩
    refine ⟨by simpa using h1, ?_⟩
    intro hn
    unfold optTruthy at h2
    rw [hn] at h2
    exact absurd h2 (by decide)
  · unfold downloadEnabled at hj
    exact (Bool.and_eq_true_iff.mp hj).2
  · rcases hc with h | h | h
    · unfold handleDownloadProceeds at hp
      rw [h.2.1] at hp
      exact absurd hp (by decide)
    · exact h.1
    · unfold handleDownloadProceeds at hp
      rw [h.2.2] at hp
      exact absurd hp (by decide)

/-- C2 witness: a concrete fresh job is consistent, a concrete completed
backend response applied to it keeps it consistent, and a concrete
completed job with a downloadUrl has the download button enabled. -/
theorem c2_job_state_invariant_witness :
    jobConsistent (onDropJob { task_id := "t1", message := "ok" }
      { name := "b.pdf", type := "application/pdf", size := 900 }
      .extractionTemplate1 5) ∧
    jobConsistent (applyStatus
      (onDropJob { task_id := "t1", message := "ok" }
        { name := "b.pdf", type := "application/pdf", size := 900 }
        .extractionTemplate1 5)
      { task_id := "t1", status := .completed,
        download_url := some "/downloads/b.xlsx" }) ∧
    downloadEnabled { taskId := "t1", filename := "b.pdf",
                      template := .extractionTemplate1, status := .completed,
                      uploadedAt := 5,
                      downloadUrl := some "/downloads/b.xlsx" } = true ∧
    handleDownloadProceeds { taskId := "t1", filename := "b.pdf",
                             template := .extractionTemplate1,
                             status := .completed, uploadedAt := 5,
                             downloadUrl := some "/downloads/b.xlsx" } = true := by
  refine ⟨c2_job_state_invariant.2.1 _ _ _ 5, ?_, by decide, ?_⟩
  · exact c2_job_state_invariant.2.2.1 _ _
      (Or.inr (Or.inl ⟨rfl, by decide, rfl⟩))
  · exact c2_job_state_invariant.2.2.2.2.2.1 _ (by decide)

/-- applyStatus never touches the taskId (the updates object at both
status call sites lists no taskId key). -/
theorem applyStatus_taskId (j : Job) (r : StatusResponse) :
    (applyStatus j r).taskId = j.taskId := rfl

/-- applyStatus sets the status to the one of the response. -/
theorem applyStatus_status (j : Job) (r : StatusResponse) :
    (applyStatus j r).status = r.status := rfl

/-- The per-element function of a status update leaves the taskId
unchanged. -/
theorem updElem_taskId (tid2 : String) (r : StatusResponse) (a : Job) :
    (if a.taskId = tid2 then mergeJob a (statusUpdates r) else a).taskId =
      a.taskId := by
  by_cases h : a.taskId = tid2
  · rw [if_pos h]
    exact applyStatus_taskId a r
  · rw [if_neg h]

/-- A status update leaves the task ids of the list unchanged. -/
theorem ids_updateJob (s : List Job) (tid : String) (r : StatusResponse) :
    ids (updateJob s tid (statusUpdates r)) = ids s := by
  unfold ids updateJob
  induction s with
  | nil => rfl
  | cons a as ih =>
    simp only [List.map_cons]
    rw [ih]
    congr 1
    exact updElem_taskId tid r a

/-- find? over a status update is the updated find? of the original list,
since the update preserves every taskId. -/
theorem find?_updateJob (s : List Job) (tid2 tid : String) (r : StatusResponse) :
    (updateJob s tid2 (statusUpdates r)).find? (fun j => j.taskId = tid) =
      (s.find? (fun j => j.taskId = tid)).map
        (fun j => if j.taskId = tid2 then applyStatus j r else j) := by
  induction s with
  | nil => rfl
  | cons a as ih =>
    unfold updateJob at ih ⊢
    simp only [List.map_cons, List.find?_cons]
    rw [updElem_taskId tid2 r a]
    by_cases h : a.taskId = tid
    · simp only [decide_eq_true h]
      rfl
    · have hd : decide (a.taskId = tid) = false := by simpa using h
      simp only [hd]
      exact ih

/-- The status the frontend holds for a task id after a status update. -/
theorem statusOf_updateJob (s : List Job) (tid2 tid : String)
    (r : StatusResponse) :
    statusOf (updateJob s tid2 (statusUpdates r)) tid =
      (s.find? (fun j => j.taskId = tid)).map
        (fun j => if j.taskId = tid2 then r.status else j.status) := by
  unfold statusOf
  rw [find?_updateJob]
  cases s.find? (fun j => j.taskId = tid) with
  | none => rfl
  | some j =>
    show some (if j.taskId = tid2 then applyStatus j r else j).status =
      some (if j.taskId = tid2 then r.status else j.status)
    by_cases h : j.taskId = tid2
    · rw [if_pos h, if_pos h]
      rfl
    · rw [if_neg h, if_neg h]

/-- With pairwise distinct task ids, find? at the taskId of a member of
the list returns that member. -/
theorem find?_self_of_nodup {s : List Job} (hnd : (ids s).Nodup) {j : Job}
    (hj : j ∈ s) : s.find? (fun x => x.taskId = j.taskId) = some j := by
  unfold ids at hnd
  cases hfind : s.find? (fun x => x.taskId = j.taskId) with
  | none =>
    rw [List.find?_eq_none] at hfind
    exact absurd (decide_eq_true rfl) (hfind j hj)
  | some j2 =>
    have hmem := List.mem_of_find?_eq_some hfind
    have hp := List.find?_some hfind
    have heq : j2.taskId = j.taskId := of_decide_eq_true hp
    rw [List.inj_on_of_nodup_map hnd hmem hj heq]

/-- One frontend operation never changes the status the frontend holds for
a task whose status already left processing. -/
theorem frontStep_status_frozen {s s2 : List Job} (h : FrontStep s s2)
    (hnd : (ids s).Nodup) (tid : String) (st : JobStatus)
    (hst : st ≠ .processing) (hcur : statusOf s tid = some st) :
    statusOf s2 tid = some st := by
  cases h with
  | add j hfresh hstat =>
    unfold statusOf at hcur
    unfold statusOf addJob
    rw [List.find?_append]
    cases hfind : s.find? (fun x => x.taskId = tid) with
    | none => rw [hfind] at hcur; simp at hcur
    | some j0 =>
      rw [hfind] at hcur
      simpa [Option.or] using hcur
  | poll j r hmem hproc =>
    rw [statusOf_updateJob]
    unfold statusOf at hcur
    cases hfind : s.find? (fun x => x.taskId = tid) with
    | none => rw [hfind] at hcur; simp at hcur
    | some j0 =>
      rw [hfind] at hcur
      have hj0 : j0.status = st := by simpa using hcur
      by_cases hc : j0.taskId = j.taskId
      · have hm0 := List.mem_of_find?_eq_some hfind
        have hji : j0 = j := by
          unfold ids at hnd
          exact List.inj_on_of_nodup_map hnd hm0 hmem hc
        rw [hji] at hj0
        rw [hproc] at hj0
        exact absurd hj0.symm hst
      · show some (if j0.taskId = j.taskId then r.status else j0.status) =
          some st
        rw [if_neg hc, hj0]
  | refresh j r hmem hok =>
    rw [statusOf_updateJob]
    unfold statusOf at hcur
    cases hfind : s.find? (fun x => x.taskId = tid) with
    | none => rw [hfind] at hcur; simp at hcur
    | some j0 =>
      rw [hfind] at hcur
      have hj0 : j0.status = st := by simpa using hcur
      by_cases hc : j0.taskId = j.taskId
      · have hm0 := List.mem_of_find?_eq_some hfind
        have hji : j0 = j := by
          unfold ids at hnd
          exact List.inj_on_of_nodup_map hnd hm0 hmem hc
        rw [hji] at hj0
        rcases hok with hpr | ⟨hfl, hrf⟩
        · rw [hpr] at hj0
          exact absurd hj0.symm hst
        · show some (if j0.taskId = j.taskId then r.status else j0.status) =
            some st
          rw [if_pos hc, hrf, ← hj0, hfl]
      · show some (if j0.taskId = j.taskId then r.status else j0.status) =
          some st
        rw [if_neg hc, hj0]
  | noop => exact hcur

/-- One frontend operation preserves distinctness of task ids. -/
theorem frontStep_nodup {s s2 : List Job} (h : FrontStep s s2)
    (hnd : (ids s).Nodup) : (ids s2).Nodup := by
  cases h with
  | add j hfresh hstat =>
    unfold ids at hfresh hnd
    unfold addJob ids
    rw [List.map_append, List.nodup_append]
    refine ⟨hnd, List.nodup_singleton _, ?_⟩
    intro x hx hx2
    simp only [List.map_cons, List.map_nil, List.mem_singleton] at hx2
    rw [hx2] at hx
    exact hfresh hx
  | poll j r hmem hproc => rw [ids_updateJob]; exact hnd
  | refresh j r hmem hok => rw [ids_updateJob]; exact hnd
  | noop => exact hnd

/-- Any number of frontend operations preserves distinctness of task
ids. -/
theorem frontSteps_nodup {s s2 : List Job} (h : FrontSteps s s2)
    (hnd : (ids s).Nodup) : (ids s2).Nodup := by
  induction h with
  | refl => exact hnd
  | tail hab hbc ih => exact frontStep_nodup hbc ih

/-- C3: over any sequence of frontend operations (uploads being added,
polling iterations, manual refreshes, failed requests) on a job list with
distinct task ids, a job whose status has left processing keeps that exact
status forever; in particular no operation moves a job out of completed or
failed, and a job transitions at most once out of processing. -/
theorem c3_terminal_status_frozen :
    ∀ (s s2 : List Job), FrontSteps s s2 → (ids s).Nodup →
    ∀ (tid : String) (st : JobStatus), st ≠ .processing →
    statusOf s tid = some st → statusOf s2 tid = some st := by
  intro s s2 h hnd tid st hst hcur
  induction h with
  | refl => exact hcur
  | tail hab hbc ih =>
    exact frontStep_status_frozen hbc (frontSteps_nodup hab hnd) tid st hst ih

/-- Completed job used by the C3 witness trace. -/
def jobWitC : Job :=
  { taskId := "c", filename := "c.pdf", template := .extractionTemplate1,
    status := .completed, uploadedAt := 0,
    downloadUrl := some "/downloads/c.xlsx" }

/-- Processing job used by the C3 witness trace. -/
def jobWitP : Job :=
  { taskId := "p", filename := "p.pdf", template := .extractionTemplate2,
    status := .processing, uploadedAt := 1 }

/-- Backend response used by the C3 witness trace. -/
def respWitP : StatusResponse :=
  { task_id := "p", status := .completed,
    download_url := some "/downloads/p.xlsx" }

/-- C3 witness: in a concrete trace where a polling iteration completes the
processing job, the already completed job keeps its status. -/
theorem c3_terminal_status_frozen_witness :
    statusOf (updateJob [jobWitC, jobWitP] jobWitP.taskId
      (statusUpdates respWitP)) "c" = some .completed := by
  exact c3_terminal_status_frozen [jobWitC, jobWitP] _
    (Relation.ReflTransGen.single
      (FrontStep.poll [jobWitC, jobWitP] jobWitP respWitP (by decide) rfl))
    (by decide) "c" .completed (by decide) rfl

end FinanceAutomation
